import Mathlib

/-!
Shallow embedding of the record-to-table normalization and serialization core of
`airflow/providers/salesforce/hooks/salesforce.py` (SalesforceHook):

* `from_records` / `lowercaseCols` / `object_to_df` embed `SalesforceHook.object_to_df`
  (pandas `DataFrame.from_records(..., exclude=["attributes"])`, column lowercasing,
  schema-driven timestamp coercion, optional provenance column).
* `to_timestamp` embeds `SalesforceHook._to_timestamp` (bulk `pd.to_datetime` with the
  `ValueError` fallback, then per-element `.timestamp()` with `ValueError`/`AttributeError`
  absorbed into NaN).
* `cleanForCsv` / `to_csv` / `to_json` / `to_ndjson` / `write_object_to_file` embed
  `SalesforceHook.write_object_to_file` (format dispatch, CSV newline cleaning).

External collaborators are parameters: the schema lookup `describe_object` is a function
`String → List SchemaField`, the permissive pandas datetime parser is a function
`List Value → Except Unit (List DTVal)` (error = the bulk `ValueError`), and `time.time()`
is a `Rat` argument.  Cell values are modelled by `Value`: pandas floats/ints are `Rat`
(`Value.num`), the NaN missing sentinel is the distinguished `Value.nan`, Python `None`
is `Value.null`.
-/

/-- A cell value as held in a pandas object column: string, number (int/float,
modelled as `Rat`; coerced timestamps are epoch seconds here), boolean, Python
`None`, or the NaN missing sentinel that pandas inserts for absent fields. -/
inductive Value where
  | str : String → Value
  | num : Rat → Value
  | bool : Bool → Value
  | null : Value
  | nan : Value
deriving Repr, DecidableEq

/-- Result of `pd.to_datetime` on one element of a successfully parsed column:
`naT` is pandas NaT (its `.timestamp()` raises `ValueError`), `dt e` is a valid
moment whose `.timestamp()` returns epoch seconds `e` (UTC, fractional allowed),
and `other` is a non-datetime element (its `.timestamp()` raises `AttributeError`). -/
inductive DTVal where
  | naT : DTVal
  | dt : Rat → DTVal
  | other : DTVal
deriving Repr, DecidableEq

/-- The per-element `value.timestamp()` call: `some` epoch seconds on success,
`none` when Python raises `ValueError` (NaT) or `AttributeError` (non-datetime). -/
def DTVal.timestampOf : DTVal → Option Rat
  | .naT => none
  | .dt e => some e
  | .other => none

/-- One Salesforce query-result record: its ordinary field entries in dict order
(the reserved `attributes` key may appear among them), plus the object type name
stored at `record["attributes"]["type"]`. -/
structure SFRecord where
  fields : List (String × Value)
  attributesType : String
deriving Repr, DecidableEq, Inhabited

/-- One field descriptor of a Salesforce object description: `field["name"]` and
`field["type"]`. -/
structure SchemaField where
  name : String
  ftype : String
deriving Repr, DecidableEq

/-- A pandas DataFrame, column-major: named columns of cell lists, plus the row
count (`df.shape[0]`). -/
structure Table where
  cols : List (String × List Value)
  nrows : Nat
deriving Repr, DecidableEq

/-- Python `str.lower()` (ASCII range), as a structural map over the character
list so that it evaluates by kernel reduction. -/
def strToLower (s : String) : String := ⟨s.data.map Char.toLower⟩

/-- The keys of a record, in dict insertion order. -/
def recKeys (r : SFRecord) : List String := r.fields.map Prod.fst

/-- Union of all records' keys in first-seen order, as pandas
`DataFrame.from_records` determines the column set from a list of dicts. -/
def firstSeenKeys (records : List SFRecord) : List String :=
  ((records.map recKeys).flatten).foldl
    (fun acc k => if acc.contains k then acc else acc ++ [k]) []

/-- Field lookup in a record; a missing key becomes the NaN missing sentinel,
as `DataFrame.from_records` fills absent fields. -/
def lookupField (r : SFRecord) (k : String) : Value :=
  match r.fields.find? (fun p => p.1 == k) with
  | some p => p.2
  | none => Value.nan

/-- Boolean string membership, as Python `x in df.columns`. -/
def memb (key : String) (l : List String) : Bool := l.any (fun c => c == key)

/-- The table built by `pd.DataFrame.from_records(query_results, exclude=["attributes"])`
on its success path: columns are the first-seen union of record keys minus the
exact key `attributes`; each row has one cell per column, NaN where the record
lacks the key. -/
def recordsTable (records : List SFRecord) : Table :=
  ⟨((firstSeenKeys records).filter (fun k => k != "attributes")).map
    (fun k => (k, records.map (fun r => lookupField r k))), records.length⟩

/-- `pd.DataFrame.from_records(query_results, exclude=["attributes"])` including
its error path: the exclude handling calls `Index.drop(["attributes"])` with its
default `errors="raise"`, so whenever the exact key `attributes` is not among the
records' columns — in particular for an empty record list — a `KeyError` is
raised instead of a table being built. -/
def from_records (records : List SFRecord) : Except String Table :=
  if memb "attributes" (firstSeenKeys records) then Except.ok (recordsTable records)
  else Except.error "KeyError: attributes not found in axis"

/-- `df.columns = [column.lower() for column in df.columns]`. -/
def lowercaseCols (t : Table) : Table :=
  ⟨t.cols.map (fun p => (strToLower p.1, p.2)), t.nrows⟩

/-- `SalesforceHook._to_timestamp`: try the bulk `pd.to_datetime(column)`; on its
`ValueError` return the column untouched; otherwise rebuild the column from each
element's `.timestamp()`, turning any per-element `ValueError`/`AttributeError`
into the NaN sentinel. -/
def to_timestamp (parse : List Value → Except Unit (List DTVal))
    (column : List Value) : List Value :=
  match parse column with
  | .error _ => column
  | .ok dts => dts.map (fun d =>
      match d.timestampOf with
      | some e => Value.num e
      | none => Value.nan)

/-- Whether `_to_timestamp` took its `except ValueError` branch for this column,
i.e. whether the non-fatal `log.error("Could not convert field to timestamps: ...")`
diagnostic was emitted. -/
def to_timestamp_diag (parse : List Value → Except Unit (List DTVal))
    (column : List Value) : Bool :=
  match parse column with
  | .error _ => true
  | .ok _ => false

/-- The `possible_timestamp_cols` list comprehension of `object_to_df`: schema
fields of type `date` or `datetime` whose lowercased name is an existing table
column. -/
def possibleTimestampCols (schema : List SchemaField) (colNames : List String) :
    List String :=
  (schema.filter (fun f =>
    (f.ftype == "date" || f.ftype == "datetime")
      && memb (strToLower f.name) colNames)).map (fun f => strToLower f.name)

/-- `df[possible_timestamp_cols] = df[possible_timestamp_cols].apply(self._to_timestamp)`:
every column whose name is listed is replaced by its `_to_timestamp` image, every
other column is untouched. -/
def coerceCols (parse : List Value → Except Unit (List DTVal))
    (possible_timestamp_cols : List String) (t : Table) : Table :=
  ⟨t.cols.map (fun p =>
    if memb p.1 possible_timestamp_cols then (p.1, to_timestamp parse p.2) else p),
    t.nrows⟩

/-- `df["time_fetched_from_salesforce"] = fetched_time`, with pandas
item-assignment semantics: when a column of that name already exists it is
overwritten in place (its position kept, its values replaced by the scalar
broadcast over the rows); only when no such column exists is a new column
appended at the end. -/
def setTimeCol (fetched_time : Rat) (t : Table) : Table :=
  if memb "time_fetched_from_salesforce" (t.cols.map Prod.fst) then
    ⟨t.cols.map (fun p =>
      if p.1 == "time_fetched_from_salesforce" then
        (p.1, List.replicate t.nrows (Value.num fetched_time))
      else p), t.nrows⟩
  else
    ⟨t.cols ++ [("time_fetched_from_salesforce",
      List.replicate t.nrows (Value.num fetched_time))], t.nrows⟩

/-- The guarded coercion block of `object_to_df`: if coercion is requested and
the table has at least one row, apply `_to_timestamp` to the
`possible_timestamp_cols` of the first record's `attributes.type` schema;
otherwise leave the table untouched. -/
def coerceStage (describe : String → List SchemaField)
    (parse : List Value → Except Unit (List DTVal))
    (query_results : List SFRecord) (coerce_to_timestamp : Bool)
    (df : Table) : Table :=
  if coerce_to_timestamp = true ∧ 0 < df.nrows then
    coerceCols parse
      (possibleTimestampCols (describe query_results.headI.attributesType)
        (df.cols.map Prod.fst)) df
  else df

/-- The success path of `object_to_df` after `from_records` has produced a
table: lowercase the column names, run the guarded coercion block, and with
`record_time_added` perform the provenance assignment. -/
def normalizeTable (describe : String → List SchemaField)
    (parse : List Value → Except Unit (List DTVal)) (fetched_time : Rat)
    (query_results : List SFRecord)
    (coerce_to_timestamp : Bool) (record_time_added : Bool) (df0 : Table) : Table :=
  let df := coerceStage describe parse query_results coerce_to_timestamp
    (lowercaseCols df0)
  if record_time_added then setTimeCol fetched_time df else df

/-- `SalesforceHook.object_to_df`: build the table with `from_records` (whose
`KeyError` propagates), lowercase the column names, optionally coerce
schema-declared date/datetime columns of the first record's `attributes.type`
object with `_to_timestamp`, optionally assign the `time_fetched_from_salesforce`
provenance column holding the single `time.time()` value `fetched_time`. -/
def object_to_df (describe : String → List SchemaField)
    (parse : List Value → Except Unit (List DTVal)) (fetched_time : Rat)
    (query_results : List SFRecord)
    (coerce_to_timestamp : Bool) (record_time_added : Bool) : Except String Table :=
  match from_records query_results with
  | .error e => .error e
  | .ok df0 =>
    .ok (normalizeTable describe parse fetched_time query_results
      coerce_to_timestamp record_time_added df0)

/-- A value counts toward float dtype: numbers and NaN. -/
def Value.isNumLike : Value → Bool
  | .num _ => true
  | .nan => true
  | _ => false

/-- A value counts toward bool dtype. -/
def Value.isBool : Value → Bool
  | .bool _ => true
  | _ => false

/-- `df.dtypes == "object"` for one column: the column is object-typed unless its
values are uniformly numeric (floats/NaN) or uniformly boolean. -/
def dtypeIsObject (vals : List Value) : Bool :=
  !(vals.all Value.isNumLike) && !(vals.all Value.isBool)

/-- Python `str.replace("\r\n", "")`: delete every (non-overlapping, left-to-right)
carriage-return+linefeed pair. -/
def stripCrLf : List Char → List Char
  | [] => []
  | [c] => [c]
  | c :: d :: rest =>
    if c = '\r' ∧ d = '\n' then stripCrLf rest else c :: stripCrLf (d :: rest)

/-- Python `str.replace("\n", "")`: delete every linefeed. -/
def stripLf : List Char → List Char
  | [] => []
  | c :: rest => if c = '\n' then stripLf rest else c :: stripLf rest

/-- `x.str.replace("\r\n", "").str.replace("\n", "")` applied to one cell string. -/
def stripNewlines (s : String) : String := ⟨stripLf (stripCrLf s.data)⟩

/-- The decimal digit character for `n % 10`. -/
def digitChar (n : Nat) : Char := Char.ofNat (48 + n % 10)

/-- Decimal digits of a natural number, most significant first, with fuel. -/
def natDigitsFuel : Nat → Nat → List Char
  | 0, _ => []
  | fuel + 1, n =>
    if n < 10 then [digitChar n] else natDigitsFuel fuel (n / 10) ++ [digitChar (n % 10)]

/-- Decimal rendering of a natural number. -/
def natStr (n : Nat) : String := ⟨natDigitsFuel (n + 1) n⟩

/-- Decimal rendering of an integer. -/
def intStr (i : Int) : String := if i < 0 then "-" ++ natStr i.natAbs else natStr i.natAbs

/-- Rendering of a pandas float cell (model of Python float `str`): integral
values print with a trailing `.0`, other rationals as `num/den`. -/
def ratStr (q : Rat) : String :=
  if q.den = 1 then intStr q.num ++ ".0" else intStr q.num ++ "/" ++ natStr q.den

/-- Python `str(value)` as `astype(str)` applies it to an object column's cells:
strings stay, `None` prints `None`, the NaN sentinel prints `nan`. -/
def pyStr : Value → String
  | .str s => s
  | .num q => ratStr q
  | .bool true => "True"
  | .bool false => "False"
  | .null => "None"
  | .nan => "nan"

/-- The CSV-cleaning statement
`df[possible_strings] = df[possible_strings].astype(str).apply(lambda x: x.str.replace("\r\n", "").str.replace("\n", ""))`:
every object-dtype column is stringified cell-wise and stripped of newline
sequences; other columns are untouched. -/
def cleanForCsv (t : Table) : Table :=
  ⟨t.cols.map (fun p =>
    if dtypeIsObject p.2 then
      (p.1, p.2.map (fun v => Value.str (stripNewlines (pyStr v))))
    else p), t.nrows⟩

/-- How `df.to_csv` renders one cell: the NaN sentinel becomes the empty field,
everything else its string form. -/
def csvField : Value → String
  | .nan => ""
  | v => pyStr v

/-- Join cell strings with the given separator (model of one serialized line). -/
def joinSep (sep : String) : List String → String
  | [] => ""
  | s :: rest => if rest.isEmpty then s else s ++ sep ++ joinSep sep rest

/-- `df.to_csv(filename, index=False)` as the list of file lines: a header line of
the column names followed by one line per row; no index column. -/
def to_csv (t : Table) : List String :=
  joinSep "," (t.cols.map Prod.fst) ::
    (List.range t.nrows).map (fun j =>
      joinSep "," (t.cols.map (fun p => csvField (p.2.getD j Value.nan))))

/-- JSON encoding of one cell (`df.to_json` with `date_unit="s"`): `None` and the
NaN sentinel both serialize as `null`. -/
def jsonValue : Value → String
  | .str s => "\"" ++ s ++ "\""
  | .num q => ratStr q
  | .bool true => "true"
  | .bool false => "false"
  | .null => "null"
  | .nan => "null"

/-- One row as a JSON object in `records` orientation. -/
def jsonRow (t : Table) (j : Nat) : String :=
  "\x7b" ++
    joinSep "," (t.cols.map (fun p =>
      "\"" ++ p.1 ++ "\":" ++ jsonValue (p.2.getD j Value.nan))) ++ "\x7d"

/-- `df.to_json(filename, "records", date_unit="s")`: a single JSON array. -/
def to_json (t : Table) : String :=
  "[" ++ joinSep "," ((List.range t.nrows).map (jsonRow t)) ++ "]"

/-- `df.to_json(filename, "records", lines=True, date_unit="s")`: one JSON object
per line, no enclosing array; empty table gives empty output. -/
def to_ndjson (t : Table) : String :=
  joinSep "\n" ((List.range t.nrows).map (jsonRow t))

/-- The serialized file content written by `write_object_to_file`. -/
inductive FileContent where
  | csvFile : List String → FileContent
  | jsonFile : String → FileContent
  | ndjsonFile : String → FileContent
deriving Repr, DecidableEq

/-- `SalesforceHook.write_object_to_file`: lowercase the format, reject anything
outside `csv`/`json`/`ndjson` with the `ValueError` before building the table or
writing anything, otherwise normalize with `object_to_df`, apply the CSV cleaning
when writing CSV, and return the written content with the (possibly cleaned)
dataframe the function returns. -/
def write_object_to_file (describe : String → List SchemaField)
    (parse : List Value → Except Unit (List DTVal)) (fetched_time : Rat)
    (query_results : List SFRecord) (fmt : String)
    (coerce_to_timestamp : Bool) (record_time_added : Bool) :
    Except String (FileContent × Table) :=
  let f := strToLower fmt
  if !(memb f ["csv", "json", "ndjson"]) then
    Except.error ("Format value is not recognized: " ++ f)
  else
    match object_to_df describe parse fetched_time query_results
      coerce_to_timestamp record_time_added with
    | .error e => .error e
    | .ok df =>
      if f == "csv" then
        let cleaned := cleanForCsv df
        Except.ok (FileContent.csvFile (to_csv cleaned), cleaned)
      else if f == "json" then
        Except.ok (FileContent.jsonFile (to_json df), df)
      else
        Except.ok (FileContent.ndjsonFile (to_ndjson df), df)

/-- A trivial schema lookup used by concrete checks. -/
def descW : String → List SchemaField := fun _ => []

/-- A trivial bulk parser used by concrete checks. -/
def parseW : List Value → Except Unit (List DTVal) := fun _ => Except.error ()

/-- The record used to refute C6 as stated: it carries the reserved `attributes`
entry and a distinct `Attributes` field. -/
def attrCollisionRecord : SFRecord :=
  ⟨[("attributes", Value.str "meta"), ("Attributes", Value.num 1)], "Account"⟩

/-- A length-preserving bulk parser (every value parses to NaT) used by concrete
checks. -/
def parseLen : List Value → Except Unit (List DTVal) :=
  fun col => Except.ok (col.map (fun _ => DTVal.naT))

/-- Records with different key sets used by concrete checks. -/
def recW1 : SFRecord :=
  ⟨[("attributes", Value.str "meta"), ("Id", Value.str "a"),
    ("CloseDate", Value.str "2021-01-01")], "Opportunity"⟩

/-- Second concrete record, lacking `CloseDate` and adding `Name`. -/
def recW2 : SFRecord :=
  ⟨[("attributes", Value.str "meta"), ("Id", Value.str "b"),
    ("Name", Value.str "x")], "Opportunity"⟩

/-- A record carrying a field that lowercases to the provenance column name:
`df["time_fetched_from_salesforce"] = fetched_time` then overwrites that column
in place instead of appending a new last column. -/
def provenanceCollisionRecord : SFRecord :=
  ⟨[("attributes", Value.str "meta"),
    ("Time_Fetched_From_Salesforce", Value.str "old"),
    ("Id", Value.str "a")], "Account"⟩

/-- A record whose only ordinary field is named exactly
`time_fetched_from_salesforce`; with coercion disabled no column is eligible,
yet with `record_time_added` the provenance assignment overwrites its values. -/
def provenanceOverwriteRecord : SFRecord :=
  ⟨[("attributes", Value.str "meta"),
    ("time_fetched_from_salesforce", Value.num 7)], "Account"⟩

/-- A schema declaring `CloseDate` as a `date` field, used by concrete checks. -/
def descDate : String → List SchemaField := fun _ => [⟨"CloseDate", "date"⟩]

/-- A bulk parser succeeding with one valid moment, used by concrete checks. -/
def parseDate : List Value → Except Unit (List DTVal) :=
  fun _ => Except.ok [DTVal.dt 1609459200]

/-- The four-condition eligibility test of the spec, stated per column name:
(a) coercion requested, (b) at least one record (= row), (c) the schema returned
for the first record's `attributes.type` marks a `date` or `datetime` field whose
lowercased name equals this column name, and (d) that lowercased field name is an
existing table column. -/
def eligibleSpec (coerce_to_timestamp : Bool) (query_results : List SFRecord)
    (describe : String → List SchemaField) (tableCols : List String)
    (name : String) : Bool :=
  coerce_to_timestamp && !query_results.isEmpty &&
    (describe query_results.headI.attributesType).any (fun f =>
      (f.ftype == "date" || f.ftype == "datetime")
        && (strToLower f.name == name) && memb (strToLower f.name) tableCols)

/-! ## Basic structural lemmas -/

/-- A successful `from_records` always returns the excluded-columns table. -/
theorem from_records_ok (records : List SFRecord) (df0 : Table)
    (h : from_records records = Except.ok df0) : df0 = recordsTable records := by
  unfold from_records at h
  split at h
  · cases h
    rfl
  · cases h

/-- The provenance assignment never changes the row count. -/
theorem setTimeCol_nrows (fetched_time : Rat) (t : Table) :
    (setTimeCol fetched_time t).nrows = t.nrows := by
  unfold setTimeCol
  split <;> rfl

/-- The guarded coercion block never changes the row count. -/
theorem coerceStage_nrows (describe : String → List SchemaField)
    (parse : List Value → Except Unit (List DTVal))
    (query_results : List SFRecord) (c : Bool) (t : Table) :
    (coerceStage describe parse query_results c t).nrows = t.nrows := by
  unfold coerceStage
  split <;> rfl

/-- The success path never changes the row count. -/
theorem normalizeTable_nrows (describe : String → List SchemaField)
    (parse : List Value → Except Unit (List DTVal)) (fetched_time : Rat)
    (query_results : List SFRecord) (c r : Bool) (df0 : Table) :
    (normalizeTable describe parse fetched_time query_results c r df0).nrows =
      df0.nrows := by
  simp only [normalizeTable]
  split
  · rw [setTimeCol_nrows, coerceStage_nrows]
    rfl
  · rw [coerceStage_nrows]
    rfl

/-- Inversion of a successful `object_to_df` run: `from_records` succeeded with
the excluded-columns table and the result is its normalization. -/
theorem object_to_df_ok_inv (describe : String → List SchemaField)
    (parse : List Value → Except Unit (List DTVal)) (fetched_time : Rat)
    (query_results : List SFRecord) (c r : Bool) (df : Table)
    (h : object_to_df describe parse fetched_time query_results c r = Except.ok df) :
    from_records query_results = Except.ok (recordsTable query_results)
    ∧ df = normalizeTable describe parse fetched_time query_results c r
        (recordsTable query_results) := by
  unfold object_to_df at h
  rcases hfr : from_records query_results with e | df0
  · rw [hfr] at h
    cases h
  · rw [hfr] at h
    have h0 := from_records_ok query_results df0 hfr
    subst h0
    injection h with h
    exact ⟨rfl, h.symm⟩

/-- The row count of any successfully built table is the number of input
records, across all option combinations. -/
theorem object_to_df_nrows (describe : String → List SchemaField)
    (parse : List Value → Except Unit (List DTVal)) (fetched_time : Rat)
    (query_results : List SFRecord) (c r : Bool) (df : Table)
    (h : object_to_df describe parse fetched_time query_results c r = Except.ok df) :
    df.nrows = query_results.length := by
  obtain ⟨-, rfl⟩ := object_to_df_ok_inv describe parse fetched_time query_results c r df h
  rw [normalizeTable_nrows]
  rfl

/-- `_to_timestamp` preserves the column length whenever the bulk parser does. -/
theorem to_timestamp_length (parse : List Value → Except Unit (List DTVal))
    (hparse : ∀ col dts, parse col = Except.ok dts → dts.length = col.length)
    (col : List Value) : (to_timestamp parse col).length = col.length := by
  unfold to_timestamp
  rcases h : parse col with e | dts
  · rfl
  · simpa using hparse col dts h

/-! ## C2 -/

/-- C2: when the bulk datetime parse of an eligible column succeeds, the rebuilt
column has one entry per parsed value; an entry whose parse result is a valid
moment with epoch seconds `e` becomes the number `e`, and an entry whose
per-element `.timestamp()` conversion fails (NaT from a null/empty original, or a
non-datetime element) becomes the NaN missing sentinel instead of raising. -/
theorem to_timestamp_ok_spec (parse : List Value → Except Unit (List DTVal))
    (column : List Value) (dts : List DTVal) (h : parse column = Except.ok dts) :
    (to_timestamp parse column).length = dts.length
    ∧ (∀ i : Fin dts.length, ∀ e : Rat, dts.get i = DTVal.dt e →
        (to_timestamp parse column).getD i Value.nan = Value.num e)
    ∧ (∀ i : Fin dts.length, (dts.get i).timestampOf = none →
        (to_timestamp parse column).getD i Value.nan = Value.nan) := by
  simp only [to_timestamp, h]
  refine ⟨List.length_map _ _, ?_, ?_⟩
  · intro i e he
    rw [List.getD_eq_getElem?_getD, List.getElem?_map,
      List.getElem?_eq_getElem i.isLt]
    simp [← List.get_eq_getElem, he, DTVal.timestampOf]
  · intro i hnone
    rw [List.getD_eq_getElem?_getD, List.getElem?_map,
      List.getElem?_eq_getElem i.isLt]
    simp [← List.get_eq_getElem, hnone]

/-- Concrete check of C2: a two-element column parsing to one valid moment and one
NaT yields the epoch number and the NaN sentinel. -/
theorem to_timestamp_ok_spec_witness :
    (to_timestamp (fun _ => Except.ok [DTVal.dt 1609459200, DTVal.naT])
      [Value.str "2021-01-01", Value.null]).getD 0 Value.nan = Value.num 1609459200
    ∧ (to_timestamp (fun _ => Except.ok [DTVal.dt 1609459200, DTVal.naT])
      [Value.str "2021-01-01", Value.null]).getD 1 Value.nan = Value.nan := by
  have h := to_timestamp_ok_spec (fun _ => Except.ok [DTVal.dt 1609459200, DTVal.naT])
    [Value.str "2021-01-01", Value.null] [DTVal.dt 1609459200, DTVal.naT] rfl
  exact ⟨h.2.1 ⟨0, by decide⟩ 1609459200 rfl, h.2.2 ⟨1, by decide⟩ rfl⟩

/-! ## C3 -/

/-- C3: when the bulk parse of a whole eligible column fails (the `ValueError` of
`pd.to_datetime`), `_to_timestamp` returns the column's original values completely
unchanged, and the non-fatal `log.error` diagnostic branch is taken; no exception
escapes. -/
theorem to_timestamp_err_spec (parse : List Value → Except Unit (List DTVal))
    (column : List Value) (e : Unit) (h : parse column = Except.error e) :
    to_timestamp parse column = column ∧ to_timestamp_diag parse column = true := by
  constructor
  · simp [to_timestamp, h]
  · simp [to_timestamp_diag, h]

/-- Concrete check of C3: a column of non-date strings whose bulk parse fails is
returned untouched with the diagnostic flag set. -/
theorem to_timestamp_err_spec_witness :
    to_timestamp (fun _ => Except.error ()) [Value.str "N/A", Value.str "N/A"] =
      [Value.str "N/A", Value.str "N/A"]
    ∧ to_timestamp_diag (fun _ => Except.error ()) [Value.str "N/A", Value.str "N/A"] = true :=
  to_timestamp_err_spec (fun _ => Except.error ()) [Value.str "N/A", Value.str "N/A"] () rfl

/-- On the success path, setting `record_time_added` applies exactly the
provenance assignment to the table produced with it unset. -/
theorem normalizeTable_rta (describe : String → List SchemaField)
    (parse : List Value → Except Unit (List DTVal)) (fetched_time : Rat)
    (query_results : List SFRecord) (c : Bool) (df0 : Table) :
    normalizeTable describe parse fetched_time query_results c true df0 =
      setTimeCol fetched_time
        (normalizeTable describe parse fetched_time query_results c false df0) := by
  simp only [normalizeTable]
  rw [if_pos trivial]
  rfl

/-- `object_to_df` with `record_time_added` is `object_to_df` without it
followed by the provenance assignment (errors propagate unchanged). -/
theorem object_to_df_rta (describe : String → List SchemaField)
    (parse : List Value → Except Unit (List DTVal)) (fetched_time : Rat)
    (query_results : List SFRecord) (c : Bool) :
    object_to_df describe parse fetched_time query_results c true =
      (object_to_df describe parse fetched_time query_results c false).map
        (setTimeCol fetched_time) := by
  unfold object_to_df
  rcases hfr : from_records query_results with e | df0
  · rfl
  · show Except.ok (normalizeTable describe parse fetched_time query_results c true df0) =
      Except.map (setTimeCol fetched_time)
        (Except.ok (normalizeTable describe parse fetched_time query_results c false df0))
    rw [normalizeTable_rta]
    rfl

/-! ## C8 -/

/-- C8 counterexample: on a record whose field `Time_Fetched_From_Salesforce`
lowercases to the provenance name, `record_time_added` appends nothing — the
existing column is overwritten in place (its original value `"old"` lost) and
the last column of the result is the `id` column, not the provenance pair. -/
theorem provenance_not_last :
    object_to_df (fun _ => []) (fun _ => Except.error ()) 99
        [provenanceCollisionRecord] false true =
      Except.ok ⟨[("time_fetched_from_salesforce", [Value.num 99]),
        ("id", [Value.str "a"])], 1⟩
    ∧ (⟨[("time_fetched_from_salesforce", [Value.num 99]),
        ("id", [Value.str "a"])], 1⟩ : Table).cols.getLast? ≠
      some ("time_fetched_from_salesforce", [Value.num 99]) :=
  ⟨rfl, by decide⟩

/-- C8 (amended): with `record_time_added`, normalization applies the pandas
item-assignment `df["time_fetched_from_salesforce"] = fetched_time` to the table
built without it: when no column bears that name, the provenance pair is
appended as the last column, holding the single call-time value replicated
identically for every row; when such a column already exists, it is overwritten
in place with those values, keeping its position. -/
theorem object_to_df_time_col (describe : String → List SchemaField)
    (parse : List Value → Except Unit (List DTVal)) (fetched_time : Rat)
    (query_results : List SFRecord) (c : Bool) (df0 : Table)
    (h : object_to_df describe parse fetched_time query_results c false =
      Except.ok df0) :
    object_to_df describe parse fetched_time query_results c true =
      Except.ok (setTimeCol fetched_time df0)
    ∧ (memb "time_fetched_from_salesforce" (df0.cols.map Prod.fst) = false →
        (setTimeCol fetched_time df0).cols.getLast? =
          some ("time_fetched_from_salesforce",
            List.replicate df0.nrows (Value.num fetched_time)))
    ∧ (memb "time_fetched_from_salesforce" (df0.cols.map Prod.fst) = true →
        (setTimeCol fetched_time df0).cols = df0.cols.map (fun p =>
          if p.1 == "time_fetched_from_salesforce" then
            (p.1, List.replicate df0.nrows (Value.num fetched_time))
          else p)) := by
  refine ⟨?_, ?_, ?_⟩
  · rw [object_to_df_rta, h]
    rfl
  · intro hm
    unfold setTimeCol
    rw [if_neg (by simp [hm])]
    exact List.getLast?_concat _
  · intro hm
    unfold setTimeCol
    rw [if_pos hm]

/-- Concrete check of the amended C8: without a name collision the provenance
column is appended last, with the call-time value in every row. -/
theorem object_to_df_time_col_witness :
    object_to_df descW parseW 5 [recW1] false true =
      Except.ok ⟨[("id", [Value.str "a"]), ("closedate", [Value.str "2021-01-01"]),
        ("time_fetched_from_salesforce", [Value.num 5])], 1⟩ := by
  have h := object_to_df_time_col descW parseW 5 [recW1] false
    ⟨[("id", [Value.str "a"]), ("closedate", [Value.str "2021-01-01"])], 1⟩ rfl
  rw [h.1]
  rfl

/-! ## C9 -/

/-- C9 (code bug): on the empty record sequence the code does not build a 0-row,
0-column table — `DataFrame.from_records([], exclude=["attributes"])` raises
`KeyError` because `attributes` is not among the (empty) columns — so
normalization errors out and nothing is ever serialized, in any of the three
formats. -/
theorem empty_records_keyerror (describe : String → List SchemaField)
    (parse : List Value → Except Unit (List DTVal)) (fetched_time : Rat) :
    from_records [] = Except.error "KeyError: attributes not found in axis"
    ∧ object_to_df describe parse fetched_time [] false false =
        Except.error "KeyError: attributes not found in axis"
    ∧ write_object_to_file describe parse fetched_time [] "csv" false false =
        Except.error "KeyError: attributes not found in axis"
    ∧ write_object_to_file describe parse fetched_time [] "json" false false =
        Except.error "KeyError: attributes not found in axis"
    ∧ write_object_to_file describe parse fetched_time [] "ndjson" false false =
        Except.error "KeyError: attributes not found in axis" :=
  ⟨rfl, rfl, rfl, rfl, rfl⟩

/-! ## C5 -/

/-- C5: the serializer consumes the format argument only through `fmt.lower()`,
so any two casings with the same lowercase form produce identical results, and
any format whose lowercase form is outside csv/json/ndjson fails with the
unsupported-format `ValueError` — returned before the table is built or any
content produced for the sink. -/
theorem format_dispatch_spec :
    (∀ (describe : String → List SchemaField)
       (parse : List Value → Except Unit (List DTVal)) (fetched_time : Rat)
       (query_results : List SFRecord) (c r : Bool) (fmt₁ fmt₂ : String),
       strToLower fmt₁ = strToLower fmt₂ →
       write_object_to_file describe parse fetched_time query_results fmt₁ c r =
         write_object_to_file describe parse fetched_time query_results fmt₂ c r)
    ∧ (∀ (describe : String → List SchemaField)
       (parse : List Value → Except Unit (List DTVal)) (fetched_time : Rat)
       (query_results : List SFRecord) (c r : Bool) (fmt : String),
       memb (strToLower fmt) ["csv", "json", "ndjson"] = false →
       write_object_to_file describe parse fetched_time query_results fmt c r =
         Except.error ("Format value is not recognized: " ++ strToLower fmt)) := by
  constructor
  · intro d p ft qr c r fmt₁ fmt₂ h
    simp only [write_object_to_file, h]
  · intro d p ft qr c r fmt h
    simp only [write_object_to_file, h]
    rfl

/-- Concrete check of C5: `"CSV"` and `"csv"` give identical results, `"xml"`
fails with the unsupported-format error and nothing is written. -/
theorem format_dispatch_witness :
    write_object_to_file descW parseW 0 [] "CSV" false false =
      write_object_to_file descW parseW 0 [] "csv" false false
    ∧ write_object_to_file descW parseW 0 [] "xml" false false =
      Except.error "Format value is not recognized: xml" := by
  constructor
  · exact format_dispatch_spec.1 descW parseW 0 [] false false "CSV" "csv" (by decide)
  · rw [format_dispatch_spec.2 descW parseW 0 [] false false "xml" (by decide)]
    have h : ("Format value is not recognized: " ++ strToLower "xml") =
        "Format value is not recognized: xml" := by decide
    rw [h]

/-! ## C6 -/

/-- Column names of the lowercased `from_records` table: the first-seen key union
minus the reserved `attributes` key, lowercased. -/
theorem base_cols_fst (query_results : List SFRecord) :
    (lowercaseCols (recordsTable query_results)).cols.map Prod.fst =
      ((firstSeenKeys query_results).filter (fun k => k != "attributes")).map strToLower := by
  simp only [lowercaseCols, recordsTable, List.map_map]
  rfl

/-- The coercion step never renames columns. -/
theorem coerceCols_fst (parse : List Value → Except Unit (List DTVal))
    (possible : List String) (t : Table) :
    (coerceCols parse possible t).cols.map Prod.fst = t.cols.map Prod.fst := by
  simp only [coerceCols, List.map_map]
  refine List.map_congr_left ?_
  intro p _
  by_cases h : memb p.1 possible = true <;> simp [h]

/-- The guarded coercion block never renames columns. -/
theorem coerceStage_fst (describe : String → List SchemaField)
    (parse : List Value → Except Unit (List DTVal))
    (query_results : List SFRecord) (c : Bool) (t : Table) :
    (coerceStage describe parse query_results c t).cols.map Prod.fst =
      t.cols.map Prod.fst := by
  unfold coerceStage
  split
  · exact coerceCols_fst parse _ t
  · rfl

/-- Column names after the provenance assignment: unchanged when a column of
that name exists (in-place overwrite), otherwise the name is appended last. -/
theorem setTimeCol_fst (fetched_time : Rat) (t : Table) :
    (setTimeCol fetched_time t).cols.map Prod.fst =
      (if memb "time_fetched_from_salesforce" (t.cols.map Prod.fst) = true
       then t.cols.map Prod.fst
       else t.cols.map Prod.fst ++ ["time_fetched_from_salesforce"]) := by
  unfold setTimeCol
  split
  · show (t.cols.map (fun p =>
      if p.1 == "time_fetched_from_salesforce" then
        (p.1, List.replicate t.nrows (Value.num fetched_time))
      else p)).map Prod.fst = t.cols.map Prod.fst
    rw [List.map_map]
    refine List.map_congr_left ?_
    intro p _
    simp only [Function.comp_apply]
    split <;> rfl
  · show (t.cols ++ [("time_fetched_from_salesforce",
      List.replicate t.nrows (Value.num fetched_time))]).map Prod.fst =
        t.cols.map Prod.fst ++ ["time_fetched_from_salesforce"]
    simp [List.map_append]

/-- Column names of the success path, all option combinations. -/
theorem normalizeTable_fst (describe : String → List SchemaField)
    (parse : List Value → Except Unit (List DTVal)) (fetched_time : Rat)
    (query_results : List SFRecord) (c r : Bool) (df0 : Table) :
    (normalizeTable describe parse fetched_time query_results c r df0).cols.map Prod.fst =
      (if r = true ∧ memb "time_fetched_from_salesforce"
          ((lowercaseCols df0).cols.map Prod.fst) = false
       then (lowercaseCols df0).cols.map Prod.fst ++ ["time_fetched_from_salesforce"]
       else (lowercaseCols df0).cols.map Prod.fst) := by
  simp only [normalizeTable]
  split
  · next hr =>
    subst hr
    rw [setTimeCol_fst, coerceStage_fst]
    by_cases hm : memb "time_fetched_from_salesforce"
        ((lowercaseCols df0).cols.map Prod.fst) = true
    · rw [if_pos hm, if_neg (by simp [hm])]
    · rw [if_neg hm, if_pos ⟨rfl, Bool.eq_false_iff.mpr hm⟩]
  · next hr =>
    rw [coerceStage_fst, if_neg (by simp [hr])]

/-- Column names of any successfully built table. -/
theorem object_to_df_colnames (describe : String → List SchemaField)
    (parse : List Value → Except Unit (List DTVal)) (fetched_time : Rat)
    (query_results : List SFRecord) (c r : Bool) (df : Table)
    (h : object_to_df describe parse fetched_time query_results c r = Except.ok df) :
    df.cols.map Prod.fst =
      (if r = true ∧ memb "time_fetched_from_salesforce"
          (((firstSeenKeys query_results).filter (fun k => k != "attributes")).map strToLower)
          = false
       then ((firstSeenKeys query_results).filter (fun k => k != "attributes")).map strToLower
          ++ ["time_fetched_from_salesforce"]
       else ((firstSeenKeys query_results).filter (fun k => k != "attributes")).map strToLower) := by
  obtain ⟨-, rfl⟩ := object_to_df_ok_inv describe parse fetched_time query_results c r df h
  rw [normalizeTable_fst, base_cols_fst]

/-- C6 counterexample: a record with a separate `Attributes` field (beside the
reserved `attributes` entry, which is excluded) yields, after lowercasing, a
column named exactly `attributes` — the claim that `attributes` never appears as
a column regardless of input fails on the code. -/
theorem attributes_column_appears :
    ∃ df, object_to_df (fun _ => []) (fun _ => Except.error ()) 0
        [attrCollisionRecord] false false = Except.ok df
      ∧ "attributes" ∈ df.cols.map Prod.fst :=
  ⟨⟨[("attributes", [Value.num 1])], 1⟩, rfl, by decide⟩

/-- C6 (amended): every output column name is the lowercased original field
name — the columns are exactly the first-seen union of the records' keys with
the reserved exact-case `attributes` entry removed, lowercased, plus the
provenance column appended when requested and not already present (an existing
column of that name is overwritten in place, leaving the names unchanged).  The
reserved `attributes` field itself therefore never yields a column, though a
distinct input field whose name lowercases to `attributes` still can. -/
theorem normalization_colnames (describe : String → List SchemaField)
    (parse : List Value → Except Unit (List DTVal)) (fetched_time : Rat)
    (query_results : List SFRecord) (c r : Bool) (df : Table)
    (h : object_to_df describe parse fetched_time query_results c r = Except.ok df) :
    df.cols.map Prod.fst =
      (if r = true ∧ memb "time_fetched_from_salesforce"
          (((firstSeenKeys query_results).filter (fun k => k != "attributes")).map strToLower)
          = false
       then ((firstSeenKeys query_results).filter (fun k => k != "attributes")).map strToLower
          ++ ["time_fetched_from_salesforce"]
       else ((firstSeenKeys query_results).filter (fun k => k != "attributes")).map strToLower) :=
  object_to_df_colnames describe parse fetched_time query_results c r df h

/-- Concrete check of the amended C6: two casings of `Id` plus `CloseDate`
lowercase to the expected column list with the provenance column appended. -/
theorem normalization_colnames_witness :
    ∃ df, object_to_df descW parseW 0 [recW1] false true = Except.ok df
      ∧ df.cols.map Prod.fst = ["id", "closedate", "time_fetched_from_salesforce"] := by
  refine ⟨⟨[("id", [Value.str "a"]), ("closedate", [Value.str "2021-01-01"]),
    ("time_fetched_from_salesforce", [Value.num 0])], 1⟩, rfl, ?_⟩
  exact (normalization_colnames descW parseW 0 [recW1] false true
    ⟨[("id", [Value.str "a"]), ("closedate", [Value.str "2021-01-01"]),
      ("time_fetched_from_salesforce", [Value.num 0])], 1⟩ rfl).trans (by decide)

/-! ## C7 -/

/-- Every column of the excluded-columns table has one cell per record. -/
theorem recordsTable_rect (query_results : List SFRecord) :
    ∀ p ∈ (recordsTable query_results).cols, p.2.length = query_results.length := by
  intro p hp
  simp only [recordsTable, List.mem_map] at hp
  obtain ⟨k, hk, rfl⟩ := hp
  simp

/-- The coercion step preserves the length of every column whenever the bulk
parser is length-preserving. -/
theorem coerceCols_rect (parse : List Value → Except Unit (List DTVal))
    (hparse : ∀ col dts, parse col = Except.ok dts → dts.length = col.length)
    (possible : List String) (t : Table) (n : Nat)
    (ht : ∀ q ∈ t.cols, q.2.length = n) :
    ∀ p ∈ (coerceCols parse possible t).cols, p.2.length = n := by
  intro p hp
  simp only [coerceCols, List.mem_map] at hp
  obtain ⟨q, hq, rfl⟩ := hp
  by_cases h : memb q.1 possible = true
  · simp [h, to_timestamp_length parse hparse, ht q hq]
  · simp [h, ht q hq]

/-- The provenance assignment preserves the length of every column. -/
theorem setTimeCol_rect (fetched_time : Rat) (t : Table) (n : Nat)
    (ht : ∀ q ∈ t.cols, q.2.length = n) (hn : t.nrows = n) :
    ∀ p ∈ (setTimeCol fetched_time t).cols, p.2.length = n := by
  intro p hp
  unfold setTimeCol at hp
  split at hp
  · simp only [List.mem_map] at hp
    obtain ⟨q, hq, rfl⟩ := hp
    by_cases hb : (q.1 == "time_fetched_from_salesforce") = true
    · simp [hb, hn]
    · simp [hb, ht q hq]
  · rcases List.mem_append.mp hp with h | h
    · exact ht p h
    · simp only [List.mem_singleton] at h
      subst h
      simp [hn]

/-- Rectangularity of the success path: every column keeps one cell per row. -/
theorem normalizeTable_rect (describe : String → List SchemaField)
    (parse : List Value → Except Unit (List DTVal)) (fetched_time : Rat)
    (query_results : List SFRecord) (c r : Bool) (df0 : Table)
    (hparse : ∀ col dts, parse col = Except.ok dts → dts.length = col.length)
    (h0 : ∀ q ∈ df0.cols, q.2.length = df0.nrows) :
    ∀ q ∈ (normalizeTable describe parse fetched_time query_results c r df0).cols,
      q.2.length = df0.nrows := by
  have hbase : ∀ x ∈ (lowercaseCols df0).cols, x.2.length = df0.nrows := by
    intro x hx
    simp only [lowercaseCols, List.mem_map] at hx
    obtain ⟨y, hy, rfl⟩ := hx
    exact h0 y hy
  have hstage : ∀ x ∈ (coerceStage describe parse query_results c
      (lowercaseCols df0)).cols, x.2.length = df0.nrows := by
    unfold coerceStage
    split
    · exact coerceCols_rect parse hparse _ _ _ hbase
    · exact hbase
  have hstagen : (coerceStage describe parse query_results c
      (lowercaseCols df0)).nrows = df0.nrows := by
    rw [coerceStage_nrows]
    rfl
  intro q hq
  simp only [normalizeTable] at hq
  split at hq
  · exact setTimeCol_rect fetched_time _ df0.nrows hstage hstagen q hq
  · exact hstage q hq

/-- Rectangularity of any successfully built table. -/
theorem object_to_df_rect (describe : String → List SchemaField)
    (parse : List Value → Except Unit (List DTVal)) (fetched_time : Rat)
    (query_results : List SFRecord) (c r : Bool) (df : Table)
    (hparse : ∀ col dts, parse col = Except.ok dts → dts.length = col.length)
    (h : object_to_df describe parse fetched_time query_results c r = Except.ok df) :
    ∀ p ∈ df.cols, p.2.length = query_results.length := by
  obtain ⟨-, rfl⟩ := object_to_df_ok_inv describe parse fetched_time query_results c r df h
  exact normalizeTable_rect describe parse fetched_time query_results c r
    (recordsTable query_results) hparse (recordsTable_rect query_results)

/-- C7: for a non-empty record sequence on which normalization succeeds (and a
length-preserving bulk parser, which `pd.to_datetime` is), the produced table is
rectangular — it has one row slot per record and every column holds exactly one
(possibly null) cell per row — and its columns are exactly the union of the
records' keys in first-seen order (lowercased, the reserved `attributes` entry
excluded, the provenance column appended when requested and not already
present). -/
theorem normalization_rectangular (describe : String → List SchemaField)
    (parse : List Value → Except Unit (List DTVal)) (fetched_time : Rat)
    (query_results : List SFRecord) (c r : Bool) (df : Table)
    (hparse : ∀ col dts, parse col = Except.ok dts → dts.length = col.length)
    (_hne : query_results ≠ [])
    (h : object_to_df describe parse fetched_time query_results c r = Except.ok df) :
    df.nrows = query_results.length
    ∧ (∀ p ∈ df.cols, p.2.length = query_results.length)
    ∧ df.cols.map Prod.fst =
      (if r = true ∧ memb "time_fetched_from_salesforce"
          (((firstSeenKeys query_results).filter (fun k => k != "attributes")).map strToLower)
          = false
       then ((firstSeenKeys query_results).filter (fun k => k != "attributes")).map strToLower
          ++ ["time_fetched_from_salesforce"]
       else ((firstSeenKeys query_results).filter (fun k => k != "attributes")).map strToLower) :=
  ⟨object_to_df_nrows describe parse fetched_time query_results c r df h,
   object_to_df_rect describe parse fetched_time query_results c r df hparse h,
   object_to_df_colnames describe parse fetched_time query_results c r df h⟩

/-- Concrete check of C7 on two heterogeneous records (both carrying the
reserved `attributes` entry). -/
theorem normalization_rectangular_witness :
    ∃ df, object_to_df descW parseLen 0 [recW1, recW2] true false = Except.ok df
      ∧ df.nrows = 2 ∧ ∀ p ∈ df.cols, p.2.length = 2 := by
  refine ⟨⟨[("id", [Value.str "a", Value.str "b"]),
    ("closedate", [Value.str "2021-01-01", Value.nan]),
    ("name", [Value.nan, Value.str "x"])], 2⟩, rfl, ?_, ?_⟩
  · exact (normalization_rectangular descW parseLen 0 [recW1, recW2] true false
      ⟨[("id", [Value.str "a", Value.str "b"]),
        ("closedate", [Value.str "2021-01-01", Value.nan]),
        ("name", [Value.nan, Value.str "x"])], 2⟩
      (by intro col dts hok; simp only [parseLen, Except.ok.injEq] at hok; subst hok; simp)
      (by simp) rfl).1
  · exact (normalization_rectangular descW parseLen 0 [recW1, recW2] true false
      ⟨[("id", [Value.str "a", Value.str "b"]),
        ("closedate", [Value.str "2021-01-01", Value.nan]),
        ("name", [Value.nan, Value.str "x"])], 2⟩
      (by intro col dts hok; simp only [parseLen, Except.ok.injEq] at hok; subst hok; simp)
      (by simp) rfl).2.1

/-! ## C1 -/

/-- Membership against a cons cell. -/
theorem memb_cons (key x : String) (l : List String) :
    memb key (x :: l) = ((x == key) || memb key l) := by
  simp [memb, List.any_cons]

/-- Membership in `possible_timestamp_cols` coincides with the schema-driven
eligibility condition. -/
theorem memb_possibleTimestampCols (schema : List SchemaField)
    (colNames : List String) (name : String) :
    memb name (possibleTimestampCols schema colNames) =
      schema.any (fun f =>
        (f.ftype == "date" || f.ftype == "datetime")
          && (strToLower f.name == name) && memb (strToLower f.name) colNames) := by
  induction schema with
  | nil => rfl
  | cons f fs ih =>
    simp only [possibleTimestampCols] at ih ⊢
    rw [List.filter_cons]
    by_cases hp : ((f.ftype == "date" || f.ftype == "datetime")
        && memb (strToLower f.name) colNames) = true
    · rw [if_pos hp, List.map_cons, memb_cons, ih, List.any_cons]
      rw [Bool.and_eq_true] at hp
      obtain ⟨hA, hC⟩ := hp
      rw [hA, hC]
      simp
    · rw [if_neg hp, ih, List.any_cons]
      have hfalse : ((f.ftype == "date" || f.ftype == "datetime")
          && (strToLower f.name == name) && memb (strToLower f.name) colNames) = false := by
        cases hA2 : (f.ftype == "date" || f.ftype == "datetime")
        · simp [hA2]
        · have hAC : ((f.ftype == "date" || f.ftype == "datetime")
              && memb (strToLower f.name) colNames) = false := Bool.eq_false_iff.mpr hp
          rw [hA2] at hAC
          simp only [Bool.true_and] at hAC
          simp [hAC]
      rw [hfalse]
      simp

/-- The guarded coercion block coincides, column by column, with the spec's
four-condition eligibility test. -/
theorem coerceStage_eligible (describe : String → List SchemaField)
    (parse : List Value → Except Unit (List DTVal))
    (query_results : List SFRecord) (c : Bool) (base : Table)
    (hnr : base.nrows = query_results.length) :
    coerceStage describe parse query_results c base =
      ⟨base.cols.map (fun p =>
        if eligibleSpec c query_results describe (base.cols.map Prod.fst) p.1 = true
        then (p.1, to_timestamp parse p.2) else p), base.nrows⟩ := by
  by_cases hc : c = true ∧ 0 < base.nrows
  · have hne : (!query_results.isEmpty) = true := by
      obtain ⟨-, h⟩ := hc
      rw [hnr] at h
      cases query_results
      · simp at h
      · simp
    have hobj : coerceStage describe parse query_results c base =
        coerceCols parse
          (possibleTimestampCols (describe query_results.headI.attributesType)
            (base.cols.map Prod.fst)) base := by
      unfold coerceStage
      rw [if_pos hc]
    rw [hobj]
    simp only [coerceCols]
    refine congrArg₂ _ ?_ rfl
    refine List.map_congr_left ?_
    intro p _
    rw [memb_possibleTimestampCols]
    simp only [eligibleSpec, hc.1, hne, Bool.true_and]
  · have hobj : coerceStage describe parse query_results c base = base := by
      unfold coerceStage
      rw [if_neg hc]
    rw [hobj]
    have hel : ∀ name, eligibleSpec c query_results describe
        (base.cols.map Prod.fst) name = false := by
      intro name
      simp only [eligibleSpec]
      rcases not_and_or.mp hc with h | h
      · cases c
        · rfl
        · exact absurd rfl h
      · rw [hnr] at h
        cases query_results
        · simp
        · exact absurd (by simp) h
    have hcols : base.cols.map (fun q =>
        if eligibleSpec c query_results describe (base.cols.map Prod.fst) q.1 = true
        then (q.1, to_timestamp parse q.2) else q) = base.cols := by
      have hmap : ∀ q ∈ base.cols,
          (if eligibleSpec c query_results describe (base.cols.map Prod.fst) q.1 = true
          then (q.1, to_timestamp parse q.2) else q) = q := by
        intro q _
        rw [hel q.1]
        simp
      rw [List.map_congr_left hmap]
      simp
    rw [hcols]

/-- C1 counterexample: with coercion disabled, no column meets the four
eligibility conditions, yet with `record_time_added` the code does not leave the
ineligible column named `time_fetched_from_salesforce` with its original values —
the provenance assignment overwrites its value `7` with the wall-clock `99`. -/
theorem ineligible_column_overwritten :
    object_to_df (fun _ => []) (fun _ => Except.error ()) 99
        [provenanceOverwriteRecord] false true =
      Except.ok ⟨[("time_fetched_from_salesforce", [Value.num 99])], 1⟩ := rfl

/-- C1 (amended): on the success path a column is coerced by `_to_timestamp`
exactly when the spec's four eligibility conditions hold for its name — coercion
requested, non-empty table, the first record's `attributes.type` schema marks a
`date`/`datetime` field, and that field's lowercased name is this existing
column — and every column failing any condition keeps its original values,
except that with `record_time_added` the provenance assignment then overwrites
any existing `time_fetched_from_salesforce` column. -/
theorem coercion_eligibility_spec (describe : String → List SchemaField)
    (parse : List Value → Except Unit (List DTVal)) (fetched_time : Rat)
    (query_results : List SFRecord) (c r : Bool) (df0 : Table)
    (h : from_records query_results = Except.ok df0) :
    object_to_df describe parse fetched_time query_results c r =
      Except.ok (
        let base := lowercaseCols df0
        let coerced : Table := ⟨base.cols.map (fun p =>
          if eligibleSpec c query_results describe (base.cols.map Prod.fst) p.1 = true
          then (p.1, to_timestamp parse p.2) else p), base.nrows⟩
        if r then setTimeCol fetched_time coerced else coerced) := by
  have h0 := from_records_ok query_results df0 h
  subst h0
  simp only [object_to_df, h]
  refine congrArg Except.ok ?_
  simp only [normalizeTable]
  rw [coerceStage_eligible describe parse query_results c
    (lowercaseCols (recordsTable query_results)) rfl]

/-- Concrete check of the amended C1: the schema marks `CloseDate` as a date, so
that column is coerced to the parsed epoch value while `id` keeps its original
string. -/
theorem coercion_eligibility_witness :
    object_to_df descDate parseDate 0 [recW1] true false =
      Except.ok ⟨[("id", [Value.str "a"]),
        ("closedate", [Value.num 1609459200])], 1⟩ := by
  have h := coercion_eligibility_spec descDate parseDate 0 [recW1] true false
    (recordsTable [recW1]) rfl
  rw [h]
  rfl

/-! ## C4 -/

/-- Deleting linefeeds leaves no linefeed. -/
theorem stripLf_not_mem (l : List Char) : '\n' ∉ stripLf l := by
  induction l with
  | nil => simp [stripLf]
  | cons c rest ih =>
    simp only [stripLf]
    split
    · exact ih
    · next h =>
      intro hm
      rcases List.mem_cons.mp hm with he | hm2
      · exact h he.symm
      · exact ih hm2

/-- The cleaned cell text contains no linefeed. -/
theorem stripNewlines_not_mem (s : String) : '\n' ∉ (stripNewlines s).data :=
  stripLf_not_mem (stripCrLf s.data)

/-- Digit characters are not the linefeed. -/
theorem digitChar_ne_lf (n : Nat) : digitChar n ≠ '\n' := by
  have h : ∀ d : Fin 10, Char.ofNat (48 + d.val) ≠ '\n' := by decide
  have hlt : n % 10 < 10 := Nat.mod_lt n (by decide)
  simpa [digitChar] using h ⟨n % 10, hlt⟩

/-- No linefeed among the rendered digits. -/
theorem natDigitsFuel_ne_lf (fuel : Nat) : ∀ n : Nat, ∀ c ∈ natDigitsFuel fuel n, c ≠ '\n' := by
  induction fuel with
  | zero => intro n c hc; simp [natDigitsFuel] at hc
  | succ fuel ih =>
    intro n c hc
    simp only [natDigitsFuel] at hc
    split at hc
    · rcases List.mem_singleton.mp hc with rfl
      exact digitChar_ne_lf n
    · rcases List.mem_append.mp hc with h | h
      · exact ih _ c h
      · rcases List.mem_singleton.mp h with rfl
        exact digitChar_ne_lf _

/-- The decimal rendering of a natural number contains no linefeed. -/
theorem natStr_not_mem (n : Nat) : '\n' ∉ (natStr n).data := by
  intro h
  exact natDigitsFuel_ne_lf (n + 1) n '\n' h rfl

/-- The decimal rendering of an integer contains no linefeed. -/
theorem intStr_not_mem (i : Int) : '\n' ∉ (intStr i).data := by
  unfold intStr
  split
  · rw [String.data_append]
    intro h
    rcases List.mem_append.mp h with h | h
    · simp at h
    · exact natStr_not_mem _ h
  · exact natStr_not_mem _

/-- The rendering of a numeric cell contains no linefeed. -/
theorem ratStr_not_mem (q : Rat) : '\n' ∉ (ratStr q).data := by
  unfold ratStr
  split
  · rw [String.data_append]
    intro h
    rcases List.mem_append.mp h with h | h
    · exact intStr_not_mem _ h
    · simp at h
  · rw [String.data_append, String.data_append]
    intro h
    rcases List.mem_append.mp h with h | h
    · rcases List.mem_append.mp h with h | h
      · exact intStr_not_mem _ h
      · simp at h
    · exact natStr_not_mem _ h

/-- Joining linefeed-free pieces with a linefeed-free separator stays
linefeed-free. -/
theorem joinSep_not_mem (a : Char) (sep : String) (hsep : a ∉ sep.data) :
    ∀ ss : List String, (∀ s ∈ ss, a ∉ s.data) → a ∉ (joinSep sep ss).data := by
  intro ss
  induction ss with
  | nil =>
    intro _
    simp [joinSep]
  | cons s rest ih =>
    intro hss
    simp only [joinSep]
    split
    · exact hss s (List.mem_cons_self s rest)
    · rw [String.data_append, String.data_append]
      intro hmem
      rcases List.mem_append.mp hmem with h1 | h2
      · rcases List.mem_append.mp h1 with h3 | h4
        · exact hss s (List.mem_cons_self s rest) h3
        · exact hsep h4
      · exact ih (fun u hu => hss u (List.mem_cons_of_mem s hu)) h2

/-- A `getD` access inherits any property shared by the list elements and the
default. -/
theorem getD_prop {α : Type} (P : α → Prop) (l : List α) (j : Nat) (d : α)
    (hl : ∀ x ∈ l, P x) (hd : P d) : P (l.getD j d) := by
  rw [List.getD_eq_getElem?_getD]
  rcases h : l[j]? with _ | x
  · simpa using hd
  · simpa using hl x (List.getElem?_mem h)

/-- An object-dtype verdict of `false` means the column is uniformly numeric or
uniformly boolean. -/
theorem dtypeIsObject_false (vals : List Value) (h : dtypeIsObject vals = false) :
    vals.all Value.isNumLike = true ∨ vals.all Value.isBool = true := by
  cases h1 : vals.all Value.isNumLike
  · cases h2 : vals.all Value.isBool
    · exfalso
      simp [dtypeIsObject, h1, h2] at h
    · exact Or.inr rfl
  · exact Or.inl rfl

/-- The CSV rendering of any cell of a cleaned column contains no linefeed. -/
theorem cleanForCsv_cell_not_mem (t : Table) :
    ∀ p ∈ (cleanForCsv t).cols, ∀ j : Nat,
      '\n' ∉ (csvField (p.2.getD j Value.nan)).data := by
  intro p hp j
  simp only [cleanForCsv, List.mem_map] at hp
  obtain ⟨q, hq, rfl⟩ := hp
  by_cases h : dtypeIsObject q.2 = true
  · rw [if_pos h]
    refine getD_prop (fun v => '\n' ∉ (csvField v).data) _ j Value.nan ?_ (by simp [csvField])
    intro x hx
    rcases List.mem_map.mp hx with ⟨v, -, rfl⟩
    exact stripNewlines_not_mem (pyStr v)
  · have h' : dtypeIsObject q.2 = false := Bool.eq_false_iff.mpr h
    rw [if_neg h]
    refine getD_prop (fun v => '\n' ∉ (csvField v).data) _ j Value.nan ?_ (by simp [csvField])
    intro x hx
    rcases dtypeIsObject_false q.2 h' with hall | hall
    · have hx' := List.all_eq_true.mp hall x hx
      cases x <;> simp_all [csvField, pyStr, Value.isNumLike]
      exact ratStr_not_mem _
    · have hx' := List.all_eq_true.mp hall x hx
      cases x <;> simp_all [csvField, pyStr, Value.isBool]
      rename_i b
      cases b <;> simp [pyStr]

/-- The cleaning step never renames columns. -/
theorem cleanForCsv_fst (t : Table) :
    (cleanForCsv t).cols.map Prod.fst = t.cols.map Prod.fst := by
  simp only [cleanForCsv, List.map_map]
  refine List.map_congr_left ?_
  intro p _
  by_cases h : dtypeIsObject p.2 = true <;> simp [h]

/-- C4: writing CSV cleans every object-typed (not uniformly numeric/boolean)
column by stringifying each cell and deleting its `\r\n` and `\n` sequences,
other columns are untouched; the produced file has exactly one header line (the
column names, no index column) plus one line per table row, and — provided the
column names themselves are linefeed-free, as Salesforce field names are — no
line of the file contains an embedded linefeed. -/
theorem csv_serialization_spec (t : Table)
    (hnames : ∀ name ∈ t.cols.map Prod.fst, '\n' ∉ name.data) :
    (cleanForCsv t).cols = t.cols.map (fun p =>
      if dtypeIsObject p.2 then
        (p.1, p.2.map (fun v => Value.str (stripNewlines (pyStr v))))
      else p)
    ∧ (to_csv (cleanForCsv t)).length = t.nrows + 1
    ∧ (to_csv (cleanForCsv t)).headI = joinSep "," (t.cols.map Prod.fst)
    ∧ ∀ line ∈ to_csv (cleanForCsv t), '\n' ∉ line.data := by
  refine ⟨rfl, by simp [to_csv, cleanForCsv], ?_, ?_⟩
  · simp [to_csv, cleanForCsv_fst]
  · intro line hline
    rcases List.mem_cons.mp hline with rfl | hdata
    · refine joinSep_not_mem '\n' "," (by decide) _ ?_
      rw [cleanForCsv_fst]
      exact hnames
    · rcases List.mem_map.mp hdata with ⟨j, -, rfl⟩
      refine joinSep_not_mem '\n' "," (by decide) _ ?_
      intro s hs
      rcases List.mem_map.mp hs with ⟨p, hp, rfl⟩
      exact cleanForCsv_cell_not_mem t p hp j

/-- Concrete check of C4: a two-row table with an embedded `\r\n` in a string
cell and a numeric column serializes to clean lines. -/
theorem csv_serialization_witness :
    to_csv (cleanForCsv ⟨[("c", [Value.str "line1\r\nline2", Value.null]),
        ("n", [Value.num 1, Value.nan])], 2⟩) =
      ["c,n", "line1line2,1.0", "None,"]
    ∧ ∀ line ∈ to_csv (cleanForCsv ⟨[("c", [Value.str "line1\r\nline2", Value.null]),
        ("n", [Value.num 1, Value.nan])], 2⟩), '\n' ∉ line.data := by
  constructor
  · decide
  · exact (csv_serialization_spec ⟨[("c", [Value.str "line1\r\nline2", Value.null]),
      ("n", [Value.num 1, Value.nan])], 2⟩ (by decide)).2.2.2

/-! ## C10 -/

/-- C10 (implicit): the CSV cleaning stringifies missing values of object-typed
columns too — in an object column the NaN sentinel becomes the literal text
`nan` and Python `None` the literal `None`, so they are written as those words
rather than as empty fields — while uniformly numeric columns (such as coerced
timestamp columns) are left untouched by the cleaning and their NaN entries are
written as empty CSV fields. -/
theorem csv_missing_value_spec (name : String) (vals : List Value) :
    (dtypeIsObject vals = true →
      cleanForCsv ⟨[(name, vals)], vals.length⟩ =
        ⟨[(name, vals.map (fun v => Value.str (stripNewlines (pyStr v))))], vals.length⟩)
    ∧ stripNewlines (pyStr Value.nan) = "nan"
    ∧ stripNewlines (pyStr Value.null) = "None"
    ∧ (dtypeIsObject vals = false →
      cleanForCsv ⟨[(name, vals)], vals.length⟩ = ⟨[(name, vals)], vals.length⟩)
    ∧ csvField Value.nan = "" := by
  refine ⟨?_, by decide, by decide, ?_, rfl⟩
  · intro h
    simp [cleanForCsv, h]
  · intro h
    simp [cleanForCsv, h]

/-- Concrete check of C10: a mixed column writes `None` and `nan` literally, a
numeric column writes the empty field. -/
theorem csv_missing_value_witness :
    cleanForCsv ⟨[("c", [Value.str "x", Value.null, Value.nan])], 3⟩ =
      ⟨[("c", [Value.str "x", Value.str "None", Value.str "nan"])], 3⟩
    ∧ cleanForCsv ⟨[("n", [Value.num 1, Value.nan])], 2⟩ =
      ⟨[("n", [Value.num 1, Value.nan])], 2⟩ := by
  constructor
  · exact ((csv_missing_value_spec "c" [Value.str "x", Value.null, Value.nan]).1
      (by decide)).trans (by decide)
  · exact (csv_missing_value_spec "n" [Value.num 1, Value.nan]).2.2.2.1 (by decide)
